import Mathlib

/-! Verification development for the LibertAI inference-gateway service.

The definitions below are a shallow embedding of the gateway's Python
sources: the authorization cache (`src/api_keys.py`), the usage extractors
(`src/usage.py`), the text-proxy request pipeline (`src/proxy.py`) and the
image-generation parameter validators (`src/image_routes.py`).  Machine
strings are modelled as `List Char`, Python `set` as `Finset String`,
fallible Python code (raising) as `Except`/`Option` values.  The theorems
at the end of the file settle the specification claims against these
definitions. -/

namespace LibertAI

/-! ## Authorization cache (src/api_keys.py, KeysManager)

The Python class keeps a process-wide `set` of API-key strings.  We model
the set as a `Finset String` and each method as a pure state transformer. -/

/-- Embedding of `KeysManager.add_keys`: `self.keys.update(keys)`, i.e. the
incoming keys are unioned into the held set. -/
def add_keys (keys new_keys : Finset String) : Finset String :=
  keys ∪ new_keys

/-- Embedding of `KeysManager.key_exists`: `key in self.keys`. -/
def key_exists (keys : Finset String) (key : String) : Bool :=
  decide (key ∈ keys)

/-- Modelled from the spec: `refresh_keys` is invoked by the periodic
background task `run_jobs` in src/server.py, but its definition does not
appear in the repository files under src/.  Spec 4.1: "`refresh()` fetches
the full active-credential list from the authority over the network; on
success it atomically replaces the snapshot ...; on failure (network
error, non-2xx) it retains the previous snapshot (fail-static)".  `fetched
= some snapshot` models a successful fetch of the full list, `none` a
failed one. -/
def refresh_keys (keys : Finset String) (fetched : Option (Finset String)) :
    Finset String :=
  match fetched with
  | some snapshot => snapshot
  | none => keys

/-- A mutation of the authorization cache over the process lifetime: a call
of `add_keys` (the `/libertai/api-keys` push endpoint) or one tick of the
spec-modelled `refresh_keys`. -/
inductive CacheOp
  | add (new_keys : Finset String)
  | refresh (fetched : Option (Finset String))

/-- Apply one cache mutation. -/
def applyOp (keys : Finset String) : CacheOp → Finset String
  | .add ks => add_keys keys ks
  | .refresh f => refresh_keys keys f

/-- Apply a sequence of cache mutations in order. -/
def applyOps (keys : Finset String) (ops : List CacheOp) : Finset String :=
  ops.foldl applyOp keys

/-! ## Image-generation parameter validation (src/image_routes.py)

Each Python validator raises `HTTPException(400, ...)` on bad input and
returns `None` otherwise; we model it as `Except HTTPError Unit`.
Request fields `width`, `height`, `steps` are Python ints (`Int`), and
`cfg_scale` a Python float whose only use is an exact order comparison
with 0, modelled as `ℚ`. -/

/-- An HTTP error response (FastAPI `HTTPException`). -/
structure HTTPError where
  status : Nat
  detail : String
deriving Repr, DecidableEq

/-- Constant `MAX_DIMENSION = 2048` of src/image_routes.py. -/
def MAX_DIMENSION : Int := 2048

/-- Constant `MAX_STEPS = 50` of src/image_routes.py. -/
def MAX_STEPS : Int := 50

/-- Constant `MIN_STEPS = 1` of src/image_routes.py. -/
def MIN_STEPS : Int := 1

/-- Whitespace stripped by Python `str.strip()` (ASCII range): space, tab,
newline, carriage return, vertical tab, form feed. -/
def isPyStripWs (c : Char) : Bool :=
  c == ' ' || c == '\t' || c == '\n' || c == '\r' || c == '\x0b' || c == '\x0c'

/-- Python `str.strip()`: drop leading and trailing whitespace. -/
def pyStrip (s : List Char) : List Char :=
  ((s.dropWhile isPyStripWs).reverse.dropWhile isPyStripWs).reverse

/-- Embedding of `validate_prompt`: rejects when the prompt is falsy
(empty) or strips to the empty string. -/
def validate_prompt (prompt : List Char) : Except HTTPError Unit :=
  if prompt.isEmpty || (pyStrip prompt).isEmpty then
    .error ⟨400, "Prompt cannot be empty"⟩
  else
    .ok ()

/-- Embedding of `validate_dimensions`: width and height must be positive
and at most `MAX_DIMENSION`. -/
def validate_dimensions (width height : Int) : Except HTTPError Unit :=
  if width ≤ 0 ∨ height ≤ 0 then
    .error ⟨400, "Width and height must be positive"⟩
  else if width > MAX_DIMENSION ∨ height > MAX_DIMENSION then
    .error ⟨400, "Width and height must not exceed the limit"⟩
  else
    .ok ()

/-- Embedding of `validate_steps`: steps must lie in
`[MIN_STEPS, MAX_STEPS]`. -/
def validate_steps (steps : Int) : Except HTTPError Unit :=
  if steps < MIN_STEPS ∨ steps > MAX_STEPS then
    .error ⟨400, "Steps must be between 1 and 50"⟩
  else
    .ok ()

/-- Embedding of `validate_cfg_scale`: the scale must be non-negative. -/
def validate_cfg_scale (cfg_scale : ℚ) : Except HTTPError Unit :=
  if cfg_scale < 0 then
    .error ⟨400, "cfg_scale must be non-negative"⟩
  else
    .ok ()

/-- The parameter-validation sequence of the A1111 endpoint
`generate_image_a1111`: prompt, then dimensions, then steps, then
cfg_scale, failing on the first validator that rejects. -/
def validateImageParams (prompt : List Char) (width height steps : Int)
    (cfg_scale : ℚ) : Except HTTPError Unit := do
  validate_prompt prompt
  validate_dimensions width height
  validate_steps steps
  validate_cfg_scale cfg_scale

/-! ## Raw-text pattern matching (the regexes of src/usage.py)

`extract_usage_info_from_raw` decodes the accumulated bytes with
`errors="ignore"` and searches the text with `re.search`.  We model the
decoded text directly as `List Char` and each concrete regex as a
deterministic matcher.  The patterns involved are deterministic once the
match start is fixed: `\s*` is greedy but always followed by a character
that is not whitespace, and `{.*?}` is lazy, so it captures up to the
first closing brace (`.` does not match a newline). -/

/-- Strip a literal character sequence from the front of the text. -/
def stripLit : List Char → List Char → Option (List Char)
  | [], s => some s
  | _ :: _, [] => none
  | p :: ps, c :: cs => if c = p then stripLit ps cs else none

/-- The lazy tail `.*?}` of the group `({.*?})`: the characters up to the
first closing brace, and the rest of the text after it; fails when a
newline or the end of the text comes first. -/
def lazyToBrace : List Char → Option (List Char × List Char)
  | [] => none
  | c :: cs =>
    if c = '}' then some ([], cs)
    else if c = '\n' then none
    else (lazyToBrace cs).map (fun r => (c :: r.1, r.2))

/-- Attempt the usage regex of `extract_usage_info_from_raw` — a quoted
`usage` key, optional whitespace, a colon, optional whitespace, then the
lazily captured group from an opening brace to the first closing brace —
at the start of the text; returns group 1. -/
def matchUsageAt (s : List Char) : Option (List Char) := do
  let s1 ← stripLit ("\x22usage\x22").toList s
  let s2 ← stripLit [':'] (s1.dropWhile isPyStripWs)
  let s3 ← stripLit ['{'] (s2.dropWhile isPyStripWs)
  let r ← lazyToBrace s3
  return '{' :: r.1 ++ ['}']

/-- `re.search`: attempt the usage pattern at every position, left to
right, and return the first captured group. -/
def searchUsage : List Char → Option (List Char)
  | [] => none
  | c :: cs =>
    match matchUsageAt (c :: cs) with
    | some g => some g
    | none => searchUsage cs

/-- Numeric value of a decimal digit character. -/
def digitVal (c : Char) : Nat := c.toNat - 48

/-- Value of a big-endian decimal digit string. -/
def digitsVal (ds : List Char) : Nat := ds.foldl (fun a c => 10 * a + digitVal c) 0

/-- Attempt the pattern `KEY\s*[:=]\s*(\d+)` at the start of the text
(for `KEY` one of `tokens_evaluated` / `tokens_predicted`); returns the
numeric value of the greedily captured digit group. -/
def matchTokensAt (key : List Char) (s : List Char) : Option Nat := do
  let s1 ← stripLit key s
  let s2 ← (match s1.dropWhile isPyStripWs with
    | c :: cs => if c = ':' ∨ c = '=' then some cs else none
    | [] => none)
  let ds := (s2.dropWhile isPyStripWs).takeWhile Char.isDigit
  if ds.isEmpty then none else some (digitsVal ds)

/-- `re.search` for the token-count pattern: first position where it
matches, left to right. -/
def searchTokens (key : List Char) : List Char → Option Nat
  | [] => none
  | c :: cs =>
    match matchTokensAt key (c :: cs) with
    | some n => some n
    | none => searchTokens key cs

/-! ## JSON documents (model of `json.loads`)

A restricted but honest model of the payloads `json.loads` accepts:
numbers are integers (no fraction, exponent, NaN or Infinity), strings
carry no escape sequences, and objects keep their bindings in order
(lookup takes the last binding, as a Python dict built by `json.loads`
does).  Where the model rejects a text that CPython would accept (a
float, an escaped string) the model is only narrower, never different:
every parse the model accepts agrees with `json.loads`. -/

/-- A parsed JSON value. -/
inductive Json
  | null
  | bool (b : Bool)
  | num (n : Int)
  | str (s : List Char)
  | arr (items : List Json)
  | obj (fields : List (List Char × Json))

/-- JSON inter-token whitespace. -/
def isJsonWs (c : Char) : Bool :=
  c == ' ' || c == '\t' || c == '\n' || c == '\r'

/-- Skip JSON whitespace. -/
def skipWs (s : List Char) : List Char := s.dropWhile isJsonWs

/-- Body of a JSON string after the opening quote: characters up to the
closing quote; fails on a backslash (escapes unmodelled) or a raw control
character (rejected by `json.loads`). -/
def parseStrBody : List Char → Option (List Char × List Char)
  | [] => none
  | c :: cs =>
    if c = '\x22' then some ([], cs)
    else if c = '\\' ∨ c.toNat < 32 then none
    else (parseStrBody cs).map (fun r => (c :: r.1, r.2))

/-- An unsigned JSON integer: a digit group with no superfluous leading
zero. -/
def parseNatNum (s : List Char) : Option (Nat × List Char) :=
  match s.takeWhile Char.isDigit with
  | [] => none
  | d :: ds =>
    if d = '0' ∧ ds ≠ [] then none
    else some (digitsVal (d :: ds), s.dropWhile Char.isDigit)

/-- A JSON integer: optional minus sign, then an unsigned integer. -/
def parseNum (s : List Char) : Option (Int × List Char) :=
  match s with
  | [] => none
  | c :: cs =>
    if c = '-' then (parseNatNum cs).map (fun r => (-(r.1 : Int), r.2))
    else (parseNatNum (c :: cs)).map (fun r => ((r.1 : Int), r.2))

mutual

/-- Parse one JSON value (fuelled recursion). -/
def parseVal : Nat → List Char → Option (Json × List Char)
  | 0, _ => none
  | fuel + 1, s =>
    match skipWs s with
    | [] => none
    | c :: cs =>
      if c = '\x22' then (parseStrBody cs).map (fun r => (Json.str r.1, r.2))
      else if c = '{' then
        match skipWs cs with
        | '}' :: rest => some (Json.obj [], rest)
        | s2 => (parseMembers fuel s2).map (fun r => (Json.obj r.1, r.2))
      else if c = '[' then
        match skipWs cs with
        | ']' :: rest => some (Json.arr [], rest)
        | s2 => (parseItems fuel s2).map (fun r => (Json.arr r.1, r.2))
      else if c = 'n' then (stripLit "ull".toList cs).map (fun rest => (Json.null, rest))
      else if c = 't' then (stripLit "rue".toList cs).map (fun rest => (Json.bool true, rest))
      else if c = 'f' then (stripLit "alse".toList cs).map (fun rest => (Json.bool false, rest))
      else (parseNum (c :: cs)).map (fun r => (Json.num r.1, r.2))

/-- Parse the members of a non-empty JSON object, consuming the closing
brace. -/
def parseMembers : Nat → List Char → Option (List (List Char × Json) × List Char)
  | 0, _ => none
  | fuel + 1, s => do
    let (key, s2) ← (match skipWs s with
      | c :: cs => if c = '\x22' then parseStrBody cs else none
      | [] => none)
    let s4 ← (match skipWs s2 with
      | c :: cs => if c = ':' then some cs else none
      | [] => none)
    let (v, s5) ← parseVal fuel s4
    match skipWs s5 with
    | c :: cs =>
      if c = ',' then (parseMembers fuel cs).map (fun r => ((key, v) :: r.1, r.2))
      else if c = '}' then some ([(key, v)], cs)
      else none
    | [] => none

/-- Parse the items of a non-empty JSON array, consuming the closing
bracket. -/
def parseItems : Nat → List Char → Option (List Json × List Char)
  | 0, _ => none
  | fuel + 1, s => do
    let (v, s1) ← parseVal fuel s
    match skipWs s1 with
    | c :: cs =>
      if c = ',' then (parseItems fuel cs).map (fun r => (v :: r.1, r.2))
      else if c = ']' then some ([v], cs)
      else none
    | [] => none

end

/-- Model of `json.loads`: parse one value and require only whitespace
after it. -/
def jsonLoads (s : List Char) : Except String Json :=
  match parseVal (2 * s.length + 2) s with
  | some (v, rest) =>
    if (skipWs rest).isEmpty then .ok v else .error "Extra data"
  | none => .error "JSONDecodeError"

/-- Lookup in the field list of a JSON object: the last binding of the
key wins, as in the Python dict `json.loads` builds. -/
def jsonLookup (fields : List (List Char × Json)) (key : List Char) : Option Json :=
  (fields.reverse.find? (fun kv => kv.1 == key)).map (fun kv => kv.2)

/-- Python `data.get(key, default)`: defined on dicts, an `AttributeError`
on every other value. -/
def pyDictGet (j : Json) (key : List Char) (dflt : Json) : Except String Json :=
  match j with
  | .obj fields => .ok ((jsonLookup fields key).getD dflt)
  | _ => .error "AttributeError: get"

/-- Python `int(x)` on a value produced by `json.loads`: the identity on
integers, 1/0 on booleans, decimal parsing on strings (optional sign and
surrounding whitespace; digit-group underscores unmodelled), and a
`TypeError` on `None`, lists and dicts. -/
def pyInt : Json → Except String Int
  | .num n => .ok n
  | .bool b => .ok (if b then 1 else 0)
  | .str s =>
    let core := pyStrip s
    let (sign, digits) :=
      match core with
      | '-' :: rest => ((-1 : Int), rest)
      | '+' :: rest => ((1 : Int), rest)
      | rest => ((1 : Int), rest)
    if digits ≠ [] ∧ digits.all Char.isDigit then
      .ok (sign * (digitsVal digits : Int))
    else
      .error "ValueError: invalid literal for int"
  | _ => .error "TypeError: int"

/-! ## Decimal rendering

Used to state the streamed-buffer / JSON-path equivalence for arbitrary
token counts: `renderNat n` is the decimal spelling of `n`, exactly the
digits a JSON serializer emits for the integer `n`. -/

/-- The character of one decimal digit. -/
def decDigit : Nat → Char
  | 0 => '0' | 1 => '1' | 2 => '2' | 3 => '3' | 4 => '4'
  | 5 => '5' | 6 => '6' | 7 => '7' | 8 => '8' | _ => '9'

/-- Decimal rendering of a natural number, most significant digit
first. -/
def renderNat (n : Nat) : List Char :=
  if n = 0 then ['0'] else ((Nat.digits 10 n).map decDigit).reverse

/-! ## Usage extraction (src/usage.py) -/

/-- The billing subject of one request (src/interfaces/usage.py,
`UserContext`). -/
structure UserContext where
  key : String
  model_name : String
  endpoint : String
deriving Repr, DecidableEq

/-- A token-usage record (src/interfaces/usage.py, `Usage`). -/
structure Usage where
  input_tokens : Int
  output_tokens : Int
  cached_tokens : Int
deriving Repr, DecidableEq

/-- Does the endpoint belong to the chat/completion family, i.e. appear in
the Python list `["v1/chat/completions", "v1/completions"]`? -/
def isChatFamily (endpoint : String) : Bool :=
  endpoint == "v1/chat/completions" || endpoint == "v1/completions"

/-- Embedding of `extract_usage_info_from_raw`.  The raw bytes are decoded
with `errors="ignore"` in the source; the model works directly on the
decoded text.  For the chat/completion family the embedded usage fragment
is located by the usage regex and parsed; any failure while parsing the
captured group is re-raised as the single `ValueError` "Failed to parse
usage JSON".  For the llama.cpp-style `completions` endpoint the two
token counters are located by pattern search, a missing counter counting
as 0.  Any other endpoint raises. -/
def extract_usage_info_from_raw (raw_data : List Char) (context : UserContext) :
    Except String Usage :=
  if isChatFamily context.endpoint then
    match searchUsage raw_data with
    | some group =>
      match (do
        let j ← jsonLoads group
        let pt ← pyDictGet j "prompt_tokens".toList (Json.num 0)
        let ct ← pyDictGet j "completion_tokens".toList (Json.num 0)
        let i ← pyInt pt
        let o ← pyInt ct
        pure (Usage.mk i o 0) : Except String Usage) with
      | .ok u => .ok u
      | .error _ => .error "Failed to parse usage JSON"
    | none => .error "Cannot extract usage metrics for this endpoint"
  else if context.endpoint == "completions" then
    .ok ⟨((searchTokens "tokens_evaluated".toList raw_data).getD 0 : Nat),
         ((searchTokens "tokens_predicted".toList raw_data).getD 0 : Nat), 0⟩
  else
    .error "Cannot extract usage metrics for this endpoint"

/-- Embedding of `extract_usage_info` (the JSON path): for the
chat/completion family the counters are read from the `usage` sub-object;
for the `completions` endpoint directly from the top-level document;
a missing field defaults to the integer 0; any other endpoint raises. -/
def extract_usage_info (data : Json) (context : UserContext) :
    Except String Usage :=
  if isChatFamily context.endpoint then do
    let usage ← pyDictGet data "usage".toList (Json.obj [])
    let pt ← pyDictGet usage "prompt_tokens".toList (Json.num 0)
    let ct ← pyDictGet usage "completion_tokens".toList (Json.num 0)
    let i ← pyInt pt
    let o ← pyInt ct
    pure (Usage.mk i o 0)
  else if context.endpoint == "completions" then do
    let te ← pyDictGet data "tokens_evaluated".toList (Json.num 0)
    let tp ← pyDictGet data "tokens_predicted".toList (Json.num 0)
    let i ← pyInt te
    let o ← pyInt tp
    pure (Usage.mk i o 0)
  else
    .error "Cannot extract usage metrics"

/-! ## The canonical streamed buffer and parsed document

Concrete request/response material for the equivalence claim: a streamed
buffer embedding a usage fragment with `prompt_tokens = p` and
`completion_tokens = c`, and the parsed JSON document whose usage object
carries the equivalent values. -/

/-- The text between the braces of the embedded usage object:
`prompt_tokens` and `completion_tokens` entries with the given values. -/
def usageInner (p c : Nat) : List Char :=
  "\x22prompt_tokens\x22: ".toList ++ renderNat p ++
    ", \x22completion_tokens\x22: ".toList ++ renderNat c

/-- The embedded usage fragment: a quoted `usage` key, a colon, and the
usage object. -/
def usageFragment (p c : Nat) : List Char :=
  "\x22usage\x22: \x7b".toList ++ usageInner p c ++ "\x7d".toList

/-- A streamed raw buffer containing the embedded usage fragment inside a
chat-completion chunk. -/
def rawBuffer (p c : Nat) : List Char :=
  "data: \x7b".toList ++ usageFragment p c ++ "\x7d".toList

/-- The group the usage regex captures on `rawBuffer`: the usage object
from its opening brace to its closing brace. -/
def usageGroup (p c : Nat) : List Char :=
  '{' :: (usageInner p c ++ "\x7d".toList)

/-- The parsed JSON document whose usage object carries the equivalent
values. -/
def usageDoc (p c : Nat) : Json :=
  Json.obj [("usage".toList,
    Json.obj [("prompt_tokens".toList, Json.num (p : Int)),
              ("completion_tokens".toList, Json.num (c : Int))])]

/-! ## The text proxy (src/proxy.py, `proxy_request`)

The request handler is embedded as a pure function of the shared state
(key set, model registry), the request data, and the upstream server
(a function from the forwarded request to its response).  The result
records what was sent upstream (if anything), the usage event scheduled
for background reporting (if any), and the response delivered to the
client.  Forwarded header cleanup (popping `host`) and query parameters
do not affect any claim and are not modelled.  Error detail strings are
modelled up to the dynamic interpolated part. -/

/-- A text model's configuration (src/config.py, `TextModelConfig`). -/
structure TextModelConfig where
  id : String
  url : String
  allowed_paths : List String
deriving Repr, DecidableEq

/-- An image model's configuration (src/config.py, `ImageModelConfig`). -/
structure ImageModelConfig where
  id : String
  local_path : String
  allowed_paths : List String
deriving Repr, DecidableEq

/-- `ModelConfig = TextModelConfig | ImageModelConfig`. -/
inductive ModelConfig
  | text (cfg : TextModelConfig)
  | image (cfg : ImageModelConfig)
deriving Repr, DecidableEq

/-- The request forwarded to the upstream model server. -/
structure UpstreamRequest where
  url : String
  body : List Char
deriving Repr, DecidableEq

/-- The upstream server's response.  For a streamed response `body` is the
concatenation of its chunks in arrival order. -/
structure UpstreamResponse where
  status : Nat
  headers : List (String × String)
  body : List Char
deriving Repr, DecidableEq

/-- The response delivered to the client: an `HTTPException`, a buffered
`Response`, or a `StreamingResponse` (whose relayed bytes equal the
upstream body, each chunk forwarded verbatim). -/
inductive ClientResponse
  | error (status : Nat) (detail : String)
  | buffered (body : List Char) (status : Nat) (headers : List (String × String))
  | streamed (body : List Char) (status : Nat) (headers : List (String × String))
deriving Repr, DecidableEq

/-- A usage event scheduled for background reporting
(src/interfaces/usage.py, `UsageFullData` = context + usage). -/
structure UsageFullData where
  context : UserContext
  usage : Usage
deriving Repr, DecidableEq

/-- Everything the handler did: the upstream request it forwarded (if
any), the usage event it scheduled (if any), and the client response. -/
structure ProxyResult where
  sent : Option UpstreamRequest
  reported : Option UsageFullData
  response : ClientResponse
deriving Repr, DecidableEq

/-- ASCII lowering of one character (header names are ASCII). -/
def lowerChar (c : Char) : Char :=
  if 'A' ≤ c ∧ c ≤ 'Z' then Char.ofNat (c.toNat + 32) else c

/-- ASCII lowering of a header name. -/
def lowerStr (s : String) : String :=
  String.mk (s.data.map lowerChar)

/-- `headers.get(key, default)` on an httpx header collection:
case-insensitive lookup of the first matching header (`key` is given in
lowercase). -/
def getHeader (headers : List (String × String)) (key dflt : String) : String :=
  ((headers.find? (fun kv => lowerStr kv.1 == key)).map (fun kv => kv.2)).getD dflt

/-- Is the status in the 2xx range?  httpx `raise_for_status` raises on
every response outside it. -/
def isSuccessStatus (status : Nat) : Bool :=
  200 ≤ status && status < 300

/-- The response-processing tail of `proxy_request`, from the return of
`client.send` onward: `raise_for_status` (a non-2xx status escapes to the
outer handler as a 500), classification by declared content type
(`response.headers.get("content-type", "") == "text/event-stream"`),
then Streamed relay or Buffered read-back.  In the buffered branch
`json.loads` runs outside the usage try-block, so an unparseable body
also escapes to the outer 500 handler; the usage-extraction attempt
itself is guarded, its failure only suppresses the scheduled report. -/
def handleUpstreamResponse (resp : UpstreamResponse) (user_context : UserContext) :
    Option UsageFullData × ClientResponse :=
  if ¬ isSuccessStatus resp.status then
    (none, .error 500 "Error forwarding request")
  else if getHeader resp.headers "content-type" "" == "text/event-stream" then
    ((extract_usage_info_from_raw resp.body user_context).toOption.map
       (fun u => ⟨user_context, u⟩),
     .streamed resp.body resp.status resp.headers)
  else
    match jsonLoads resp.body with
    | .error _ => (none, .error 500 "Error forwarding request")
    | .ok response_json =>
      ((extract_usage_info response_json user_context).toOption.map
         (fun u => ⟨user_context, u⟩),
       .buffered resp.body resp.status resp.headers)

/-- Resolution of `model_name` in `config.MODEL_CONFIGS`, modelled as an
association-list lookup (the Python dict has unique keys). -/
def lookupModel (model_configs : List (String × ModelConfig)) (name : String) :
    Option ModelConfig :=
  (model_configs.find? (fun kv => kv.1 == name)).map (fun kv => kv.2)

/-- Embedding of `proxy_request`: bearer-credential lookup (401), model
resolution (404), model-type check (400), allowed-path check (400), and
only then the forward to the upstream server and the handling of its
response. -/
def proxy_request (keys : Finset String) (model_configs : List (String × ModelConfig))
    (token model_name full_path : String) (body : List Char)
    (upstream : UpstreamRequest → UpstreamResponse) : ProxyResult :=
  if ¬ key_exists keys token then
    ⟨none, none, .error 401 "Invalid API key"⟩
  else
    match lookupModel model_configs model_name with
    | none => ⟨none, none, .error 404 "Model not found"⟩
    | some (.image _) => ⟨none, none, .error 400 "This endpoint is only for text models"⟩
    | some (.text model_config) =>
      if full_path ∉ model_config.allowed_paths then
        ⟨none, none, .error 400 "Invalid inference path"⟩
      else
        let user_context : UserContext := ⟨token, model_name, full_path⟩
        let req : UpstreamRequest := ⟨model_config.url ++ "/" ++ full_path, body⟩
        let handled := handleUpstreamResponse (upstream req) user_context
        ⟨some req, handled.1, handled.2⟩

/-! ## Helper lemmas -/

/-- Sequencing two `Except` computations succeeds exactly when both
do. -/
theorem except_seq_ok_iff {x y : Except HTTPError Unit} :
    (x >>= fun _ => y) = Except.ok () ↔ x = Except.ok () ∧ y = Except.ok () := by
  cases x <;> simp [Bind.bind, Except.bind]

/-- The falsy-or-blank test of `validate_prompt` is equivalent to the
stripped prompt being empty. -/
theorem prompt_blank_eq (prompt : List Char) :
    (prompt.isEmpty || (pyStrip prompt).isEmpty) = (pyStrip prompt).isEmpty := by
  cases prompt with
  | nil => rfl
  | cons c cs => simp [List.isEmpty]

/-- `validate_prompt` accepts exactly the prompts that do not strip to
the empty string. -/
theorem validate_prompt_ok_iff (prompt : List Char) :
    validate_prompt prompt = Except.ok () ↔ pyStrip prompt ≠ [] := by
  rw [validate_prompt, prompt_blank_eq]
  rcases h : pyStrip prompt with _ | ⟨c, cs⟩ <;> simp

/-- `validate_dimensions` accepts exactly the dimensions inside
`[1, 2048]²`. -/
theorem validate_dimensions_ok_iff (width height : Int) :
    validate_dimensions width height = Except.ok () ↔
      1 ≤ width ∧ width ≤ 2048 ∧ 1 ≤ height ∧ height ≤ 2048 := by
  rw [validate_dimensions]
  split_ifs with h1 h2 <;> simp [MAX_DIMENSION] at * <;> omega

/-- `validate_steps` accepts exactly the step counts inside `[1, 50]`. -/
theorem validate_steps_ok_iff (steps : Int) :
    validate_steps steps = Except.ok () ↔ 1 ≤ steps ∧ steps ≤ 50 := by
  rw [validate_steps]
  split_ifs with h <;> simp [MIN_STEPS, MAX_STEPS] at * <;> omega

/-- `validate_cfg_scale` accepts exactly the non-negative scales. -/
theorem validate_cfg_scale_ok_iff (cfg_scale : ℚ) :
    validate_cfg_scale cfg_scale = Except.ok () ↔ 0 ≤ cfg_scale := by
  rw [validate_cfg_scale]
  split_ifs with h <;> simp at * <;> linarith

/-! ## Claim C7 -/

/-- C7: image-generation parameter validation accepts exactly when the
prompt is non-empty after trimming whitespace, width and height lie in
[1, 2048], the step count lies in [1, 50] and cfg_scale is non-negative;
width=0, height=3000, steps=0 and steps=51 are each rejected with a 400
validation error, while width=512, height=512, steps=9 is accepted. -/
theorem C7_image_param_validation :
    (∀ (prompt : List Char) (width height steps : Int) (cfg_scale : ℚ),
      validateImageParams prompt width height steps cfg_scale = Except.ok () ↔
        pyStrip prompt ≠ [] ∧ 1 ≤ width ∧ width ≤ 2048 ∧ 1 ≤ height ∧
          height ≤ 2048 ∧ 1 ≤ steps ∧ steps ≤ 50 ∧ 0 ≤ cfg_scale) ∧
    (∃ d, validateImageParams "a cat".toList 0 512 9 0 = Except.error ⟨400, d⟩) ∧
    (∃ d, validateImageParams "a cat".toList 512 3000 9 0 = Except.error ⟨400, d⟩) ∧
    (∃ d, validateImageParams "a cat".toList 512 512 0 0 = Except.error ⟨400, d⟩) ∧
    (∃ d, validateImageParams "a cat".toList 512 512 51 0 = Except.error ⟨400, d⟩) ∧
    validateImageParams "a cat".toList 512 512 9 0 = Except.ok () := by
  refine ⟨fun prompt width height steps cfg_scale => ?_, ⟨_, rfl⟩, ⟨_, rfl⟩,
    ⟨_, rfl⟩, ⟨_, rfl⟩, rfl⟩
  rw [validateImageParams, except_seq_ok_iff, except_seq_ok_iff, except_seq_ok_iff,
    validate_prompt_ok_iff, validate_dimensions_ok_iff, validate_steps_ok_iff,
    validate_cfg_scale_ok_iff]
  tauto

/-! ## Claim C1 -/

/-- C1: after every successful refresh, the credential set equals exactly
the fetched snapshot — a credential absent from the fetched list no
longer exists afterwards — and the previously held credentials are not
merged in. -/
theorem C1_refresh_replaces_snapshot (prev snapshot : Finset String) (key : String)
    (h : key ∉ snapshot) :
    refresh_keys prev (some snapshot) = snapshot ∧
    key_exists (refresh_keys prev (some snapshot)) key = false := by
  refine ⟨rfl, ?_⟩
  simp [key_exists, refresh_keys, h]

/-- Witness for C1 at a concrete refresh: the previously held key `a` is
gone after a successful refresh fetching only `b`. -/
theorem C1_refresh_replaces_snapshot_witness :
    refresh_keys {"a"} (some {"b"}) = {"b"} ∧
    key_exists (refresh_keys {"a"} (some {"b"})) "a" = false :=
  C1_refresh_replaces_snapshot {"a"} {"b"} "a" (by decide)

/-! ## Claim C9 -/

/-- C9 is refuted as stated: a successful refresh (the spec-modelled
operation driven by the background task) replaces the snapshot, so a key
that existed can stop existing. -/
theorem C9_monotonic_counterexample :
    key_exists (applyOps ∅ [CacheOp.add {"k"}]) "k" = true ∧
    key_exists (applyOps ∅ [CacheOp.add {"k"}, CacheOp.refresh (some ∅)]) "k" = false := by
  constructor <;> decide

/-- C9 (amended): restricted to the mutating operations actually defined
in src/api_keys.py — `add_keys` only — the credential set grows
monotonically: once a key exists, it still exists after any further
sequence of `add_keys` calls. -/
theorem C9_addonly_monotonic (init : Finset String) (adds : List (Finset String))
    (key : String) (h : key_exists init key = true) :
    key_exists (applyOps init (adds.map CacheOp.add)) key = true := by
  induction adds generalizing init with
  | nil => exact h
  | cons a t ih =>
    simp only [List.map_cons, applyOps, List.foldl_cons] at *
    apply ih
    simp only [key_exists, decide_eq_true_eq, applyOp, add_keys, Finset.mem_union] at h ⊢
    exact Or.inl h

/-- Witness for C9 (amended) at a concrete add sequence. -/
theorem C9_addonly_monotonic_witness :
    key_exists (applyOps {"k"} ([{"j"}].map CacheOp.add)) "k" = true :=
  C9_addonly_monotonic {"k"} [{"j"}] "k" (by decide)

/-! ## Claim C2 -/

/-- C2: the proxied text request runs its checks in the order credential
(401), model resolution (404), model type (400), allowed path (400), and
whenever one of them fails nothing is sent to the upstream server
(`sent = none`) — for any upstream behaviour. -/
theorem C2_failfast_order (keys : Finset String)
    (model_configs : List (String × ModelConfig))
    (token model_name full_path : String) (body : List Char)
    (upstream : UpstreamRequest → UpstreamResponse) :
    (key_exists keys token = false →
      proxy_request keys model_configs token model_name full_path body upstream =
        ⟨none, none, .error 401 "Invalid API key"⟩) ∧
    (key_exists keys token = true →
      lookupModel model_configs model_name = none →
      proxy_request keys model_configs token model_name full_path body upstream =
        ⟨none, none, .error 404 "Model not found"⟩) ∧
    (∀ icfg, key_exists keys token = true →
      lookupModel model_configs model_name = some (.image icfg) →
      proxy_request keys model_configs token model_name full_path body upstream =
        ⟨none, none, .error 400 "This endpoint is only for text models"⟩) ∧
    (∀ tcfg, key_exists keys token = true →
      lookupModel model_configs model_name = some (.text tcfg) →
      full_path ∉ tcfg.allowed_paths →
      proxy_request keys model_configs token model_name full_path body upstream =
        ⟨none, none, .error 400 "Invalid inference path"⟩) := by
  refine ⟨fun h1 => ?_, fun h1 h2 => ?_, fun icfg h1 h2 => ?_, fun tcfg h1 h2 h3 => ?_⟩
  · simp [proxy_request, h1]
  · simp [proxy_request, h1, h2]
  · simp [proxy_request, h1, h2]
  · simp [proxy_request, h1, h2, h3]

/-- Witness for C2: each of the four failing checks at a concrete state,
with a fixed upstream that is never consulted. -/
theorem C2_failfast_order_witness :
    proxy_request {"tok"} [("m", ModelConfig.text ⟨"m", "u", ["p"]⟩)] "bad" "m" "p" []
        (fun _ => ⟨200, [], []⟩) = ⟨none, none, .error 401 "Invalid API key"⟩ ∧
    proxy_request {"tok"} [] "tok" "m" "p" []
        (fun _ => ⟨200, [], []⟩) = ⟨none, none, .error 404 "Model not found"⟩ ∧
    proxy_request {"tok"} [("m", ModelConfig.image ⟨"m", "lp", ["p"]⟩)] "tok" "m" "p" []
        (fun _ => ⟨200, [], []⟩) =
      ⟨none, none, .error 400 "This endpoint is only for text models"⟩ ∧
    proxy_request {"tok"} [("m", ModelConfig.text ⟨"m", "u", ["p"]⟩)] "tok" "m" "q" []
        (fun _ => ⟨200, [], []⟩) = ⟨none, none, .error 400 "Invalid inference path"⟩ :=
  ⟨(C2_failfast_order _ _ _ _ _ _ _).1 (by decide),
   (C2_failfast_order _ _ _ _ _ _ _).2.1 (by decide) rfl,
   (C2_failfast_order _ _ _ _ _ _ _).2.2.1 _ (by decide) rfl,
   (C2_failfast_order _ _ _ _ _ _ _).2.2.2 _ (by decide) rfl (by decide)⟩

/-! ## Claim C10 -/

/-- C10: for a chat/completion-family endpoint, raw-bytes extraction on a
buffer containing no embedded usage object fragment raises (an
extraction failure) rather than returning a zero usage record. -/
theorem C10_raw_missing_usage_raises (raw_data : List Char) (context : UserContext)
    (hfam : isChatFamily context.endpoint = true)
    (hnone : searchUsage raw_data = none) :
    extract_usage_info_from_raw raw_data context =
      Except.error "Cannot extract usage metrics for this endpoint" := by
  simp [extract_usage_info_from_raw, hfam, hnone]

/-- Witness for C10 on a concrete usage-free buffer. -/
theorem C10_raw_missing_usage_raises_witness :
    extract_usage_info_from_raw "hello".toList ⟨"k", "m", "v1/chat/completions"⟩ =
      Except.error "Cannot extract usage metrics for this endpoint" :=
  C10_raw_missing_usage_raises _ _ (by decide) (by decide)

/-! ## Claim C8 -/

/-- C8: in the buffered path, a failure of usage extraction (including an
endpoint with no matching extractor entry) never changes the response
delivered to the client: the response is the unmodified body, status and
headers, it is the same for every billing context — hence the same
whether the extraction for the actual context succeeds or raises — and
an extraction failure only suppresses the scheduled usage report. -/
theorem C8_extraction_isolated (resp : UpstreamResponse) (ctx ctx2 : UserContext)
    (j : Json) (hs : isSuccessStatus resp.status = true)
    (hct : getHeader resp.headers "content-type" "" ≠ "text/event-stream")
    (hp : jsonLoads resp.body = .ok j) :
    (handleUpstreamResponse resp ctx).2 =
      ClientResponse.buffered resp.body resp.status resp.headers ∧
    (handleUpstreamResponse resp ctx).2 = (handleUpstreamResponse resp ctx2).2 ∧
    (∀ e, extract_usage_info j ctx = .error e →
      (handleUpstreamResponse resp ctx).1 = none) := by
  refine ⟨?_, ?_, fun e he => ?_⟩
  · simp [handleUpstreamResponse, hs, hct, hp]
  · simp [handleUpstreamResponse, hs, hct, hp]
  · simp [handleUpstreamResponse, hs, hct, hp, he, Except.toOption]

/-- Witness for C8: a JSON body on an endpoint with no extractor entry —
the extraction raises, the client still gets the unmodified 200
response, and no usage event is scheduled. -/
theorem C8_extraction_isolated_witness :
    (handleUpstreamResponse ⟨200, [("content-type", "application/json")], ['\x7b', '\x7d']⟩
        ⟨"k", "m", "other/endpoint"⟩).2 =
      ClientResponse.buffered ['\x7b', '\x7d'] 200 [("content-type", "application/json")] ∧
    (handleUpstreamResponse ⟨200, [("content-type", "application/json")], ['\x7b', '\x7d']⟩
        ⟨"k", "m", "other/endpoint"⟩).1 = none := by
  have h := C8_extraction_isolated
    ⟨200, [("content-type", "application/json")], ['\x7b', '\x7d']⟩
    ⟨"k", "m", "other/endpoint"⟩ ⟨"k", "m", "other/endpoint"⟩ (Json.obj [])
    (by decide) (by decide) rfl
  exact ⟨h.1, h.2.2 _ rfl⟩

/-! ## Claim C4 -/

/-- C4 is refuted as stated: an event-stream content type carrying a
charset parameter does not select Streamed handling — the upstream
response below is handled Buffered. -/
theorem C4_charset_counterexample :
    (handleUpstreamResponse
        ⟨200, [("content-type", "text/event-stream; charset=utf-8")], ['\x7b', '\x7d']⟩
        ⟨"k", "m", "v1/chat/completions"⟩).2 =
      ClientResponse.buffered ['\x7b', '\x7d'] 200
        [("content-type", "text/event-stream; charset=utf-8")] := by
  rfl

/-- C4 (amended): classification is by exact string equality — the proxy
selects Streamed handling exactly when the declared content type equals
`text/event-stream` verbatim; every other declared content type,
parameterized event-stream forms included, selects Buffered handling. -/
theorem C4_classification_exact (resp : UpstreamResponse) (ctx : UserContext)
    (hs : isSuccessStatus resp.status = true) :
    (∃ b st hd, (handleUpstreamResponse resp ctx).2 = ClientResponse.streamed b st hd) ↔
      getHeader resp.headers "content-type" "" = "text/event-stream" := by
  by_cases h : getHeader resp.headers "content-type" "" = "text/event-stream"
  · simp only [h, iff_true]
    exact ⟨resp.body, resp.status, resp.headers, by simp [handleUpstreamResponse, hs, h]⟩
  · simp only [h, iff_false, not_exists]
    intro b st hd
    rcases hj : jsonLoads resp.body with e | v <;>
      simp [handleUpstreamResponse, hs, h, hj]

/-- Witness for C4 (amended): an exact `text/event-stream` content type is
handled Streamed. -/
theorem C4_classification_exact_witness :
    ∃ b st hd, (handleUpstreamResponse ⟨200, [("content-type", "text/event-stream")], []⟩
      ⟨"k", "m", "v1/chat/completions"⟩).2 = ClientResponse.streamed b st hd :=
  (C4_classification_exact ⟨200, [("content-type", "text/event-stream")], []⟩
    ⟨"k", "m", "v1/chat/completions"⟩ (by decide)).mpr rfl

/-! ## Claim C3 -/

/-- C3 is refuted as stated: a Buffered upstream response whose body is
not parseable JSON is not returned unmodified — `json.loads` runs before
the response is built and its failure escapes to the generic 500
handler. -/
theorem C3_unparseable_body_counterexample :
    (handleUpstreamResponse ⟨200, [("content-type", "application/json")], "not json".toList⟩
        ⟨"k", "m", "v1/chat/completions"⟩).2 =
      ClientResponse.error 500 "Error forwarding request" := by
  rfl

/-- C3 (amended): for every upstream response classified as Buffered
whose body parses as JSON, the proxy returns the upstream body, status
code and headers unmodified to the client; a Buffered response with an
unparseable body is instead answered with the generic 500 error. -/
theorem C3_buffered_passthrough (keys : Finset String)
    (model_configs : List (String × ModelConfig))
    (token model_name full_path : String) (body : List Char)
    (upstream : UpstreamRequest → UpstreamResponse) (tcfg : TextModelConfig) (j : Json)
    (h1 : key_exists keys token = true)
    (h2 : lookupModel model_configs model_name = some (.text tcfg))
    (h3 : full_path ∈ tcfg.allowed_paths)
    (hs : isSuccessStatus (upstream ⟨tcfg.url ++ "/" ++ full_path, body⟩).status = true)
    (hct : getHeader (upstream ⟨tcfg.url ++ "/" ++ full_path, body⟩).headers
      "content-type" "" ≠ "text/event-stream")
    (hp : jsonLoads (upstream ⟨tcfg.url ++ "/" ++ full_path, body⟩).body = .ok j) :
    (proxy_request keys model_configs token model_name full_path body upstream).response =
      ClientResponse.buffered (upstream ⟨tcfg.url ++ "/" ++ full_path, body⟩).body
        (upstream ⟨tcfg.url ++ "/" ++ full_path, body⟩).status
        (upstream ⟨tcfg.url ++ "/" ++ full_path, body⟩).headers := by
  simp [proxy_request, h1, h2, h3, handleUpstreamResponse, hs, hct, hp]

/-- Witness for C3 (amended) at a concrete request whose upstream answers
200 with a JSON body. -/
theorem C3_buffered_passthrough_witness :
    (proxy_request {"tok"} [("m", ModelConfig.text ⟨"m", "u", ["p"]⟩)] "tok" "m" "p" []
        (fun _ => ⟨200, [("content-type", "application/json")], ['\x7b', '\x7d']⟩)).response =
      ClientResponse.buffered ['\x7b', '\x7d'] 200 [("content-type", "application/json")] :=
  C3_buffered_passthrough {"tok"} [("m", ModelConfig.text ⟨"m", "u", ["p"]⟩)]
    "tok" "m" "p" [] (fun _ => ⟨200, [("content-type", "application/json")], ['\x7b', '\x7d']⟩)
    ⟨"m", "u", ["p"]⟩ (Json.obj []) (by decide) rfl (by decide) (by decide) (by decide) rfl

/-! ## Claim C6 -/

/-- C6 is refuted as stated: the JSON-path extractor for the completions
endpoint can raise — a present `tokens_evaluated` field whose value is
JSON null makes Python `int()` raise a `TypeError`. -/
theorem C6_json_path_counterexample :
    extract_usage_info (Json.obj [("tokens_evaluated".toList, Json.null)])
      ⟨"k", "m", "completions"⟩ = Except.error "TypeError: int" := by
  rfl

/-- C6 (amended): for the llama.cpp-style completions endpoint the
raw-path extractor always succeeds, a missing counter pattern read as 0;
the JSON-path extractor succeeds with 0 for missing fields and with the
field values when present as integers (it can raise only when a present
field carries a non-integral value). -/
theorem C6_completions_missing_defaults (raw_data : List Char)
    (fields : List (List Char × Json)) (context : UserContext)
    (hend : context.endpoint = "completions") :
    (extract_usage_info_from_raw raw_data context =
      .ok ⟨((searchTokens "tokens_evaluated".toList raw_data).getD 0 : Nat),
           ((searchTokens "tokens_predicted".toList raw_data).getD 0 : Nat), 0⟩) ∧
    (∀ i o : Int,
      (jsonLookup fields "tokens_evaluated".toList = none ∧ i = 0 ∨
        jsonLookup fields "tokens_evaluated".toList = some (Json.num i)) →
      (jsonLookup fields "tokens_predicted".toList = none ∧ o = 0 ∨
        jsonLookup fields "tokens_predicted".toList = some (Json.num o)) →
      extract_usage_info (Json.obj fields) context = .ok ⟨i, o, 0⟩) := by
  have hjson : ∀ te tp : Option Json,
      jsonLookup fields "tokens_evaluated".toList = te →
      jsonLookup fields "tokens_predicted".toList = tp →
      extract_usage_info (Json.obj fields) context = (do
        let i ← pyInt (te.getD (Json.num 0))
        let o ← pyInt (tp.getD (Json.num 0))
        pure (Usage.mk i o 0)) := by
    intro te tp hte htp
    subst hte
    subst htp
    simp [extract_usage_info, hend, isChatFamily, pyDictGet, Bind.bind, Except.bind]
  refine ⟨?_, fun i o hte htp => ?_⟩
  · simp [extract_usage_info_from_raw, hend, isChatFamily]
  · rcases hte with ⟨hte, rfl⟩ | hte <;> rcases htp with ⟨htp, rfl⟩ | htp <;>
      rw [hjson _ _ hte htp] <;>
      simp [pyInt, Bind.bind, Except.bind, pure, Except.pure]

/-- Witness for C6 (amended): a counter-free raw buffer and an empty
document both yield the all-zero usage record, and a document where only
`tokens_evaluated` is present (as the integer 3) while
`tokens_predicted` is missing yields 3 and the default 0. -/
theorem C6_completions_missing_defaults_witness :
    extract_usage_info_from_raw "x".toList ⟨"k", "m", "completions"⟩ = .ok ⟨0, 0, 0⟩ ∧
    extract_usage_info (Json.obj []) ⟨"k", "m", "completions"⟩ = .ok ⟨0, 0, 0⟩ ∧
    extract_usage_info (Json.obj [("tokens_evaluated".toList, Json.num 3)])
      ⟨"k", "m", "completions"⟩ = .ok ⟨3, 0, 0⟩ := by
  have h := C6_completions_missing_defaults "x".toList [] ⟨"k", "m", "completions"⟩ rfl
  have h2 := C6_completions_missing_defaults "x".toList
    [("tokens_evaluated".toList, Json.num 3)] ⟨"k", "m", "completions"⟩ rfl
  refine ⟨?_, h.2 0 0 (Or.inl ⟨rfl, rfl⟩) (Or.inl ⟨rfl, rfl⟩),
    h2.2 3 0 (Or.inr rfl) (Or.inl ⟨rfl, rfl⟩)⟩
  have h1 := h.1
  rw [show searchTokens "tokens_evaluated".toList "x".toList = none from by decide,
    show searchTokens "tokens_predicted".toList "x".toList = none from by decide] at h1
  exact h1

/-! ## Lemmas on rendered digits and the text matchers (towards C5) -/

/-- Stripping a literal from itself followed by anything leaves the
rest. -/
theorem stripLit_self (xs rest : List Char) : stripLit xs (xs ++ rest) = some rest := by
  induction xs with
  | nil => rfl
  | cons x xs ih => simp [stripLit, ih]

/-- The lazy scan captures everything up to the first closing brace. -/
theorem lazyToBrace_append (xs rest : List Char)
    (h : ∀ ch ∈ xs, ch ≠ '}' ∧ ch ≠ '\n') :
    lazyToBrace (xs ++ '}' :: rest) = some (xs, rest) := by
  induction xs with
  | nil => simp [lazyToBrace]
  | cons x xs ih =>
    have hx := h x (List.mem_cons_self ..)
    simp [lazyToBrace, hx.1, hx.2, ih (fun ch hc => h ch (List.mem_cons_of_mem _ hc))]

/-- `decDigit` of a digit value is a digit character with that value. -/
theorem decDigit_facts (d : Nat) (h : d < 10) :
    (decDigit d).isDigit = true ∧ digitVal (decDigit d) = d := by
  interval_cases d <;> exact ⟨by decide, by decide⟩

/-- A digit character is none of the JSON structural characters and no
kind of whitespace. -/
theorem digit_char_facts (ch : Char) (h : ch.isDigit = true) :
    ch ≠ '}' ∧ ch ≠ '\n' ∧ ch ≠ '\x22' ∧ ch ≠ '{' ∧ ch ≠ '[' ∧ ch ≠ 'n' ∧
      ch ≠ 't' ∧ ch ≠ 'f' ∧ ch ≠ '-' ∧ isJsonWs ch = false ∧ isPyStripWs ch = false := by
  have hws : isJsonWs ch = false := by
    cases e : isJsonWs ch with
    | false => rfl
    | true =>
      exfalso
      simp only [isJsonWs, Bool.or_eq_true, beq_iff_eq] at e
      rcases e with ((e | e) | e) | e <;> (subst e; exact absurd h (by decide))
  have hpws : isPyStripWs ch = false := by
    cases e : isPyStripWs ch with
    | false => rfl
    | true =>
      exfalso
      simp only [isPyStripWs, Bool.or_eq_true, beq_iff_eq] at e
      rcases e with ((((e | e) | e) | e) | e) | e <;> (subst e; exact absurd h (by decide))
  refine ⟨?_, ?_, ?_, ?_, ?_, ?_, ?_, ?_, ?_, hws, hpws⟩ <;>
    (intro e; subst e; exact absurd h (by decide))

/-- The decimal rendering is never empty. -/
theorem renderNat_ne_nil (n : Nat) : renderNat n ≠ [] := by
  unfold renderNat
  split_ifs with h
  · simp
  · intro heq
    have hmap : (Nat.digits 10 n).map decDigit = [] := by
      simpa using congrArg List.reverse heq
    have : Nat.digits 10 n = [] := by simpa using hmap
    exact Nat.digits_ne_nil_iff_ne_zero.mpr h this

/-- Every character of the decimal rendering is a digit. -/
theorem renderNat_all_digit (n : Nat) : ∀ ch ∈ renderNat n, ch.isDigit = true := by
  intro ch hch
  unfold renderNat at hch
  split_ifs at hch with h
  · simp at hch
    subst hch
    decide
  · simp only [List.mem_reverse, List.mem_map] at hch
    obtain ⟨d, hd, rfl⟩ := hch
    exact (decDigit_facts d (Nat.digits_lt_base (by norm_num) hd)).1

/-- Horner evaluation of the reversed digit list recovers the value. -/
theorem foldl_decDigits (L : List Nat) (hL : ∀ d ∈ L, d < 10) :
    ∀ a : Nat, ((L.map decDigit).reverse).foldl (fun acc ch => 10 * acc + digitVal ch) a =
      a * 10 ^ L.length + Nat.ofDigits 10 L := by
  induction L with
  | nil => intro a; simp [Nat.ofDigits]
  | cons d T ih =>
    intro a
    have hd := hL d (List.mem_cons_self ..)
    have hT : ∀ x ∈ T, x < 10 := fun x hx => hL x (List.mem_cons_of_mem _ hx)
    simp only [List.map_cons, List.reverse_cons, List.foldl_append, List.foldl_cons,
      List.foldl_nil]
    rw [ih hT, (decDigit_facts d hd).2, Nat.ofDigits_cons]
    simp only [List.length_cons, pow_succ]
    ring

/-- The numeric value of the decimal rendering is the number itself. -/
theorem digitsVal_renderNat (n : Nat) : digitsVal (renderNat n) = n := by
  unfold renderNat digitsVal
  split_ifs with h
  · subst h; decide
  · rw [foldl_decDigits _ (fun d hd => Nat.digits_lt_base (by norm_num) hd) 0]
    simp [Nat.ofDigits_digits]

/-- The decimal rendering starts with `0` only for the number 0 itself,
whose rendering is the single character `0`. -/
theorem renderNat_zero_head (n : Nat) (ds : List Char)
    (h : renderNat n = '0' :: ds) : ds = [] := by
  by_cases hn : n = 0
  · subst hn
    simp [renderNat] at h
    exact h
  · exfalso
    unfold renderNat at h
    rw [if_neg hn] at h
    have hmap : (Nat.digits 10 n).map decDigit = ds.reverse ++ ['0'] := by
      have := congrArg List.reverse h
      simpa using this
    obtain ⟨L, x, hLx⟩ := (Nat.digits 10 n).eq_nil_or_concat.resolve_left
      (Nat.digits_ne_nil_iff_ne_zero.mpr hn)
    rw [hLx, List.concat_eq_append, List.map_append] at hmap
    have hx0 : decDigit x = '0' := by
      have := congrArg (fun l => l.getLast? ) hmap
      simpa [List.getLast?_append] using this
    have hxne : x ≠ 0 := by
      have hlast := Nat.getLast_digit_ne_zero 10 hn
      rw [List.getLast_congr _ _ hLx] at hlast
      · simpa [List.concat_eq_append, List.getLast_append] using hlast
      · simp [List.concat_eq_append]
    have hxlt : x < 10 := Nat.digits_lt_base (by norm_num)
      (by rw [hLx, List.concat_eq_append]; exact List.mem_concat_self L x)
    interval_cases x <;> simp_all [decDigit]

/-- The usage pattern cannot match at a position that does not start
with a double quote. -/
theorem matchUsageAt_ne_quote (ch : Char) (cs : List Char) (h : ch ≠ '\x22') :
    matchUsageAt (ch :: cs) = none := by
  simp [matchUsageAt, stripLit, h]

/-- One step of the left-to-right regex search past a failing
position. -/
theorem searchUsage_cons_none (ch : Char) (cs : List Char)
    (h : matchUsageAt (ch :: cs) = none) :
    searchUsage (ch :: cs) = searchUsage cs := by
  simp [searchUsage, h]

/-- `skipWs` is the identity on text starting with non-whitespace. -/
theorem skipWs_not (ch : Char) (cs : List Char) (h : isJsonWs ch = false) :
    skipWs (ch :: cs) = ch :: cs := by
  simp [skipWs, List.dropWhile_cons, h]

/-- `skipWs` drops a leading whitespace character. -/
theorem skipWs_ws (ch : Char) (cs : List Char) (h : isJsonWs ch = true) :
    skipWs (ch :: cs) = skipWs cs := by
  simp [skipWs, List.dropWhile_cons, h]

/-- The lazy scan passes over a brace- and newline-free segment. -/
theorem lazyToBrace_seg (xs rest : List Char)
    (h : ∀ ch ∈ xs, ch ≠ '}' ∧ ch ≠ '\n') :
    lazyToBrace (xs ++ rest) = (lazyToBrace rest).map (fun r => (xs ++ r.1, r.2)) := by
  induction xs with
  | nil => simp [Option.map_id]
  | cons x xs ih =>
    have hx := h x (List.mem_cons_self ..)
    have ih' := ih (fun ch hc => h ch (List.mem_cons_of_mem _ hc))
    simp only [List.cons_append, lazyToBrace, if_neg hx.1, if_neg hx.2]
    rw [show xs.append rest = xs ++ rest from rfl, ih']
    cases lazyToBrace rest <;> rfl

/-- A quote-terminated, escape-free string body parses to itself. -/
theorem parseStrBody_closed (xs rest : List Char)
    (h : ∀ ch ∈ xs, ch ≠ '\x22' ∧ ch ≠ '\\' ∧ ¬ ch.toNat < 32) :
    parseStrBody (xs ++ '\x22' :: rest) = some (xs, rest) := by
  induction xs with
  | nil => simp [parseStrBody]
  | cons x xs ih =>
    have hx := h x (List.mem_cons_self ..)
    have hor : ¬ (x = '\\' ∨ x.toNat < 32) := by
      rintro (e | e)
      · exact hx.2.1 e
      · exact hx.2.2 e
    simp [parseStrBody, hx.1, hor, ih (fun ch hc => h ch (List.mem_cons_of_mem _ hc))]

/-- A rendered number followed by a non-digit parses back to itself. -/
theorem parseNatNum_render (n : Nat) (r : Char) (rs : List Char)
    (hr : r.isDigit = false) :
    parseNatNum (renderNat n ++ r :: rs) = some (n, r :: rs) := by
  have htake : (renderNat n ++ r :: rs).takeWhile Char.isDigit = renderNat n := by
    rw [List.takeWhile_append_of_pos (renderNat_all_digit n)]
    simp [List.takeWhile_cons, hr]
  have hdrop : (renderNat n ++ r :: rs).dropWhile Char.isDigit = r :: rs := by
    rw [List.dropWhile_append_of_pos (renderNat_all_digit n)]
    simp [List.dropWhile_cons, hr]
  unfold parseNatNum
  rw [htake, hdrop]
  rcases e : renderNat n with _ | ⟨d, ds⟩
  · exact absurd e (renderNat_ne_nil n)
  · have hlz : ¬ (d = '0' ∧ ds ≠ []) := by
      rintro ⟨rfl, hds⟩
      exact hds (renderNat_zero_head n ds e)
    have hval : digitsVal (d :: ds) = n := by rw [← e, digitsVal_renderNat]
    simp [hlz, hval]

/-- No character of the canonical usage-object interior is a closing
brace or a newline, so the lazy group scan passes over all of it. -/
theorem usageInner_chars (p c : Nat) : ∀ ch ∈ usageInner p c, ch ≠ '}' ∧ ch ≠ '\n' := by
  intro ch hch
  simp only [usageInner, List.append_assoc, List.mem_append] at hch
  rcases hch with hch | hch | hch | hch
  · exact (by decide : ∀ ch ∈ "\x22prompt_tokens\x22: ".toList, ch ≠ '}' ∧ ch ≠ '\n') ch hch
  · have := digit_char_facts ch (renderNat_all_digit p ch hch)
    exact ⟨this.1, this.2.1⟩
  · exact (by decide : ∀ ch ∈ ", \x22completion_tokens\x22: ".toList,
      ch ≠ '}' ∧ ch ≠ '\n') ch hch
  · have := digit_char_facts ch (renderNat_all_digit c ch hch)
    exact ⟨this.1, this.2.1⟩

/-- The usage regex matches at the canonical fragment and captures the
usage object up to its closing brace. -/
theorem matchUsageAt_fragment (p c : Nat) (tail : List Char) :
    matchUsageAt (usageFragment p c ++ tail) = some (usageGroup p c) := by
  have hfrag : usageFragment p c ++ tail =
      "\x22usage\x22".toList ++ (':' :: ' ' :: '{' :: (usageInner p c ++ ('}' :: tail))) := by
    simp [usageFragment, List.append_assoc]
  rw [hfrag]
  unfold matchUsageAt
  rw [stripLit_self]
  simp only [Option.bind_eq_bind, Option.some_bind]
  rw [show stripLit [':'] (List.dropWhile isPyStripWs
      (':' :: ' ' :: '{' :: (usageInner p c ++ '}' :: tail))) =
      some (' ' :: '{' :: (usageInner p c ++ '}' :: tail)) from rfl]
  simp only [Option.some_bind]
  rw [show stripLit ['{'] (List.dropWhile isPyStripWs
      (' ' :: '{' :: (usageInner p c ++ '}' :: tail))) =
      some (usageInner p c ++ '}' :: tail) from rfl]
  simp only [Option.some_bind]
  rw [lazyToBrace_seg _ _ (usageInner_chars p c)]
  rw [show lazyToBrace ('}' :: tail) = some ([], tail) from rfl]
  simp [usageGroup]

/-- A successful match at the current position ends the search. -/
theorem searchUsage_eq_some (s g : List Char) (h : matchUsageAt s = some g) :
    searchUsage s = some g := by
  cases s with
  | nil => simp [matchUsageAt, stripLit] at h
  | cons ch cs => simp [searchUsage, h]

/-- The search skips over any quote-free prefix. -/
theorem searchUsage_append_no_quote (pre s : List Char)
    (h : ∀ ch ∈ pre, ch ≠ '\x22') :
    searchUsage (pre ++ s) = searchUsage s := by
  induction pre with
  | nil => rfl
  | cons x xs ih =>
    rw [List.cons_append,
      searchUsage_cons_none _ _ (matchUsageAt_ne_quote _ _ (h x (List.mem_cons_self ..)))]
    exact ih fun ch hc => h ch (List.mem_cons_of_mem _ hc)

/-- On the canonical streamed buffer the regex search captures exactly
the embedded usage object. -/
theorem searchUsage_rawBuffer (p c : Nat) :
    searchUsage (rawBuffer p c) = some (usageGroup p c) := by
  have hb : rawBuffer p c = "data: \x7b".toList ++ (usageFragment p c ++ ['}']) := by
    simp [rawBuffer]
  rw [hb, searchUsage_append_no_quote _ _ (by decide),
    searchUsage_eq_some _ _ (matchUsageAt_fragment p c ['}'])]

/-- A space, a rendered number, then a non-digit parse as one numeric
JSON value. -/
theorem parseVal_space_render (k n : Nat) (r : Char) (rs : List Char)
    (hr : r.isDigit = false) :
    parseVal (k + 1) (' ' :: (renderNat n ++ r :: rs)) =
      some (Json.num (n : Int), r :: rs) := by
  rcases e : renderNat n with _ | ⟨d, ds⟩
  · exact absurd e (renderNat_ne_nil n)
  obtain ⟨h1, h2, h3, h4, h5, h6, h7, h8, h9, h10, h11⟩ :=
    digit_char_facts d (renderNat_all_digit n d (by rw [e]; exact List.mem_cons_self ..))
  simp only [parseVal]
  rw [skipWs_ws _ _ (by decide), List.cons_append, skipWs_not _ _ h10]
  simp only [if_neg h3, if_neg h4, if_neg h5, if_neg h6, if_neg h7, if_neg h8]
  have hx : d :: (ds ++ r :: rs) = renderNat n ++ r :: rs := by rw [e]; rfl
  rw [hx]
  unfold parseNum
  rw [e, List.cons_append]
  simp only [if_neg h9]
  rw [show d :: (ds ++ r :: rs) = renderNat n ++ r :: rs from by rw [e]; rfl,
    parseNatNum_render n r rs hr]
  rfl

/-- The final member of the usage object — a space, a quoted key, a
colon, a space and a rendered number before the closing brace — parses
to the singleton field list. -/
theorem parseMembers_last (k n : Nat) (key : List Char)
    (hkey : ∀ ch ∈ key, ch ≠ '\x22' ∧ ch ≠ '\\' ∧ ¬ ch.toNat < 32) :
    parseMembers (k + 2)
      (' ' :: '\x22' :: (key ++ ('\x22' :: ':' :: ' ' :: (renderNat n ++ ['}'])))) =
      some ([(key, Json.num (n : Int))], []) := by
  simp only [parseMembers]
  rw [skipWs_ws _ _ (by decide), skipWs_not _ _ (by decide)]
  simp only [reduceIte]
  rw [parseStrBody_closed _ _ hkey]
  simp only [Option.bind_eq_bind, Option.some_bind]
  rw [skipWs_not _ _ (by decide)]
  simp only [reduceIte, Option.some_bind]
  rw [parseVal_space_render k n '}' [] (by decide)]
  simp only [Option.some_bind]
  rw [skipWs_not _ _ (by decide)]
  simp only [reduceIte]
  rw [if_neg (by decide : ¬ ('}' = ','))]

/-- The two members of the canonical usage object parse to the expected
field list. -/
theorem parseMembers_two (k p c : Nat) :
    parseMembers (k + 3) ('\x22' :: ("prompt_tokens".toList ++ ('\x22' :: ':' :: ' ' ::
        (renderNat p ++ (',' :: ' ' :: '\x22' :: ("completion_tokens".toList ++
          ('\x22' :: ':' :: ' ' :: (renderNat c ++ ['}'])))))))) =
      some ([("prompt_tokens".toList, Json.num (p : Int)),
             ("completion_tokens".toList, Json.num (c : Int))], []) := by
  rw [parseMembers.eq_2]
  rw [skipWs_not _ _ (by decide)]
  simp only [reduceIte]
  rw [parseStrBody_closed _ _ (by decide)]
  simp only [Option.bind_eq_bind, Option.some_bind]
  rw [skipWs_not _ _ (by decide)]
  simp only [reduceIte, Option.some_bind]
  rw [parseVal_space_render (k + 1) p ',' _ (by decide)]
  simp only [Option.some_bind]
  rw [skipWs_not _ _ (by decide)]
  simp only [reduceIte]
  rw [parseMembers_last k c "completion_tokens".toList (by decide)]
  rfl

/-- The captured group parses as the two-field usage object, consuming
the whole group. -/
theorem parseVal_usageGroup (p c k : Nat) :
    parseVal (k + 4) (usageGroup p c) =
      some (Json.obj [("prompt_tokens".toList, Json.num (p : Int)),
                      ("completion_tokens".toList, Json.num (c : Int))], []) := by
  have hg : usageGroup p c = '{' :: '\x22' :: ("prompt_tokens".toList ++ ('\x22' :: ':' :: ' ' ::
      (renderNat p ++ (',' :: ' ' :: '\x22' :: ("completion_tokens".toList ++
        ('\x22' :: ':' :: ' ' :: (renderNat c ++ ['}']))))))) := by
    simp [usageGroup, usageInner]
  rw [hg, parseVal.eq_2]
  rw [skipWs_not _ _ (by decide)]
  simp only [reduceIte]
  rw [skipWs_not _ _ (by decide)]
  rw [if_neg (by decide : ¬ ('{' = '\x22'))]
  split
  · rename_i rest heq
    exact absurd heq (by simp)
  · rw [parseMembers_two k p c]
    rfl

/-- `json.loads` on the captured group yields the two-field usage
document. -/
theorem jsonLoads_usageGroup (p c : Nat) :
    jsonLoads (usageGroup p c) =
      .ok (Json.obj [("prompt_tokens".toList, Json.num (p : Int)),
                     ("completion_tokens".toList, Json.num (c : Int))]) := by
  unfold jsonLoads
  obtain ⟨k, hk⟩ : ∃ k, 2 * (usageGroup p c).length + 2 = k + 4 := by
    refine ⟨2 * (usageGroup p c).length - 2, ?_⟩
    have h1 : 1 ≤ (usageGroup p c).length := by
      simp [usageGroup]
    omega
  rw [hk, parseVal_usageGroup]
  rfl

/-! ## Claim C5 -/

/-- C5: for a chat/completion-family endpoint, raw-bytes extraction on a
streamed buffer embedding a usage fragment with prompt_tokens = p and
completion_tokens = c yields Usage(p, c, 0), exactly the record that
JSON-path extraction yields on the parsed document whose usage object
carries the equivalent values. -/
theorem C5_raw_equals_json_path (p c : Nat) (context : UserContext)
    (hfam : isChatFamily context.endpoint = true) :
    extract_usage_info_from_raw (rawBuffer p c) context =
      extract_usage_info (usageDoc p c) context ∧
    extract_usage_info_from_raw (rawBuffer p c) context =
      Except.ok (Usage.mk (p : Int) (c : Int) 0) := by
  have hraw : extract_usage_info_from_raw (rawBuffer p c) context =
      Except.ok (Usage.mk (p : Int) (c : Int) 0) := by
    simp only [extract_usage_info_from_raw, hfam, if_true]
    rw [searchUsage_rawBuffer]
    simp [jsonLoads_usageGroup, pyDictGet, jsonLookup, pyInt, Bind.bind, Except.bind,
      pure, Except.pure]
  have hjson : extract_usage_info (usageDoc p c) context =
      Except.ok (Usage.mk (p : Int) (c : Int) 0) := by
    simp [extract_usage_info, hfam, usageDoc, pyDictGet, jsonLookup, pyInt,
      Bind.bind, Except.bind, pure, Except.pure]
  exact ⟨hraw.trans hjson.symm, hraw⟩

/-- Witness for C5 at the values of the spec's example (5 and 7) on the
chat endpoint. -/
theorem C5_raw_equals_json_path_witness :
    extract_usage_info_from_raw (rawBuffer 5 7) ⟨"k", "m", "v1/chat/completions"⟩ =
      extract_usage_info (usageDoc 5 7) ⟨"k", "m", "v1/chat/completions"⟩ ∧
    extract_usage_info_from_raw (rawBuffer 5 7) ⟨"k", "m", "v1/chat/completions"⟩ =
      Except.ok (Usage.mk ((5 : Nat) : Int) ((7 : Nat) : Int) 0) :=
  C5_raw_equals_json_path 5 7 ⟨"k", "m", "v1/chat/completions"⟩ (by decide)

end LibertAI
